import Mathlib

/-!
Verification of the MLAS SGEMM micro-kernels of this repository.

The source under scrutiny is the set of hand-written x86-64 assembly kernels
embedded in `onnxruntime/core/framework/tensor_type_and_shape.cc`:

  * `MlasGemmFloatKernelAvx`        (SgemmKernelAvx.asm module)
  * `MlasSgemmKernelM1Avx`          (SgemmKernelAvx.asm module)
  * `MlasSgemmKernelM1TransposeBAvx`(SgemmKernelAvx.asm module)
  * `MlasGemmFloatKernelAvx512F`    (SgemmKernelAvx512F.asm module)
  * `MlasGemmFloatKernelFma3`       (SgemmKernelFma3.asm module)

Embedding conventions:

  * 32-bit floats are embedded as exact rationals (`ℚ`); the SIMD lane
    reassociation of sums is therefore invisible (addition over `ℚ` is
    associative and commutative), which is the arithmetic the claims
    themselves are stated in.
  * a matrix is a total function `ℕ → ℕ → ℚ` from (row, column) to the
    stored value; the `lda`/`ldc` leading-dimension byte arithmetic of the
    assembly is abstracted into this row/column addressing, and the packed
    B panel is addressed as `Bp k j` (contraction row `k`, global output
    column `j`), matching the layout produced by `MlasSgemmCopyPackB` /
    `MlasSgemmTransposePackB` that the kernel headers require.
  * the column-band loops of the kernels are total functions driven by a
    fuel parameter; each kernel invokes its loop with fuel `CountN`, which
    the loop never exhausts (each iteration consumes at least 16 columns).
-/

namespace Mlas

/-- A matrix embedded as a total function from (row index, column index)
to the rational value stored there. -/
abbrev Mat : Type := ℕ → ℕ → ℚ

/-- Accumulation of one output element over the contraction dimension.
The per-`k` multiply/accumulate steps are the `vmulps`/`vaddps`
(`ComputeBlockAvxBy16`/`By8`) and `vfmadd231ps` (`ComputeBlockFma3By16`/`By8`,
`ComputeBlockAvx512FBy32`/`By16`) instructions of the source.  The driving
loop over `k` is the `ComputeBlockLoop` macro of `SgemmKernelCommon.inc`,
which is not among the analyzed sources; modelled from the spec: the
micro-kernel "accumulates C[i,j] += alpha * sum_k A[i,k]*B[k,j]", so the
loop is embedded as a left fold over `k < CountK`. -/
def computeBlockLoop (A Bp : Mat) (countK i j : ℕ) : ℚ :=
  (List.range countK).foldl (fun acc k => acc + A i k * Bp k j) 0

/-- The `MlasMaskMoveAvx` constant table.  It is only declared `EXTERN` in
the analyzed sources; modelled from the spec: the mask built from it has
set lanes exactly the first `remaining` lanes, so the table holds the lane
indices `0,1,2,...` as 32-bit integers. -/
def maskMoveAvx (lane : ℕ) : ℤ := (lane : ℤ)

/-- Lane mask computed by `vpcmpgtd` of the broadcast remaining-column
count against the `MlasMaskMoveAvx` table (`OutputMasked8xNBlock` of the
AVX kernel, and the single-`ymm` compare of the FMA3 kernel): lane `lane`
is set iff `maskMoveAvx lane < n`. -/
def avxLaneMask (n lane : ℕ) : Bool := decide (maskMoveAvx lane < (n : ℤ))

/-- The AVX512F per-column k-mask `(1 << remaining) - 1` built by
`shl edi,cl` / `dec edi` / `kmovw k1,edi` in `Output16xNBlock`. -/
def avx512Mask (n : ℕ) : ℕ := (1 <<< n) - 1

/-- Unmasked store of a `width`-column band of rows `0..rows-1` starting at
column `j0` (the `vmovups` stores of `Store16xNBlock`, `Store8xNBlock`,
`Store32xNBlock`). -/
def storeBand (rows j0 width : ℕ) (v : Mat) (C : Mat) : Mat :=
  fun i j => if i < rows ∧ j0 ≤ j ∧ j < j0 + width then v i j else C i j

/-- Masked `vmaskmovps` store of the final partial 8-column band
(`StoreMasked8xNBlock`): only lanes set in the AVX lane mask for the
remaining count `n` are written. -/
def storeMaskedAvx (rows j0 n : ℕ) (v : Mat) (C : Mat) : Mat :=
  fun i j =>
    if i < rows ∧ j0 ≤ j ∧ j < j0 + 8 ∧ avxLaneMask n (j - j0) then v i j
    else C i j

/-- Masked `vmovups ... {k1}` store of a 16-column AVX512F band
(`Store16xNBlockWithMask`): only lanes set in the k-mask for the remaining
count `n` are written. -/
def storeMaskedAvx512 (rows j0 n : ℕ) (v : Mat) (C : Mat) : Mat :=
  fun i j =>
    if i < rows ∧ j0 ≤ j ∧ j < j0 + 16 ∧ (avx512Mask n).testBit (j - j0) then v i j
    else C i j

/-- Value stored for one output element by the unmasked output paths of all
three block kernels: the accumulator is multiplied by alpha (`vmulps` with
the broadcast alpha in zero mode) and, when not in zero mode, the existing
C element is added (`vaddps` with a load of C in the AVX kernel,
`vfmadd213ps acc,alpha,C` in the FMA3/AVX512F kernels — the same exact
value `acc * alpha + C`). -/
def bandVal (A Bp : Mat) (alpha : ℚ) (zero : Bool) (countK : ℕ) (C : Mat)
    (i j : ℕ) : ℚ :=
  if zero then computeBlockLoop A Bp countK i j * alpha
  else computeBlockLoop A Bp countK i j * alpha + C i j

/-- Value stored by the masked output path of the AVX and FMA3 kernels
(`OutputMasked8xNBlock`): in accumulate mode the existing C band is loaded
through the lane mask (`vmaskmovps`, unset lanes read as zero) before being
added. -/
def bandValMasked (A Bp : Mat) (alpha : ℚ) (zero : Bool) (countK n j0 : ℕ)
    (C : Mat) (i j : ℕ) : ℚ :=
  if zero then computeBlockLoop A Bp countK i j * alpha
  else computeBlockLoop A Bp countK i j * alpha
    + (if avxLaneMask n (j - j0) then C i j else 0)

/-- Column-band loop of the `ProcessCountM` macro of the AVX kernel
(SgemmKernelAvx.asm).  Control flow mirrors the source: while more than 8
columns remain a 16-wide band is computed; if fewer than 16 remain the
first 8 columns are stored unmasked (`StoreMasked16xNBlock`) and the
ragged tail goes through the lane-masked 8-wide path
(`OutputMasked8xNBlock`); a full 16-wide band is stored unmasked
(`Store16xNBlock`) and the loop continues; with at most 8 columns an
8-wide band is computed and stored unmasked when exactly 8 remain
(`Store8xNBlock`) or lane-masked otherwise.  `fuel` is an upper bound on
the remaining column count. -/
def avxColumnLoop (A Bp : Mat) (alpha : ℚ) (zero : Bool) (countK rows : ℕ) :
    ℕ → ℕ → ℕ → Mat → Mat
  | 0, _, _, C => C
  | fuel + 1, j0, n, C =>
      if 8 < n then
        if n < 16 then
          storeMaskedAvx rows (j0 + 8) (n - 8)
            (bandValMasked A Bp alpha zero countK (n - 8) (j0 + 8)
              (storeBand rows j0 8 (bandVal A Bp alpha zero countK C) C))
            (storeBand rows j0 8 (bandVal A Bp alpha zero countK C) C)
        else if n - 16 = 0 then
          storeBand rows j0 16 (bandVal A Bp alpha zero countK C) C
        else
          avxColumnLoop A Bp alpha zero countK rows fuel (j0 + 16) (n - 16)
            (storeBand rows j0 16 (bandVal A Bp alpha zero countK C) C)
      else if n = 8 then
        storeBand rows j0 8 (bandVal A Bp alpha zero countK C) C
      else
        storeMaskedAvx rows j0 n
          (bandValMasked A Bp alpha zero countK n j0 C) C

/-- Column-band loop of the `ProcessCountM` macro of the FMA3 kernel
(SgemmKernelFma3.asm).  The control flow is the same band structure as the
AVX kernel; the arithmetic uses `vfmadd213ps acc,alpha,C` in accumulate
mode and `vmulps acc,acc,alpha` in zero mode, which denote the same exact
values `acc * alpha + C` and `acc * alpha` stored by `bandVal` /
`bandValMasked`. -/
def fma3ColumnLoop (A Bp : Mat) (alpha : ℚ) (zero : Bool) (countK rows : ℕ) :
    ℕ → ℕ → ℕ → Mat → Mat
  | 0, _, _, C => C
  | fuel + 1, j0, n, C =>
      if 8 < n then
        if n < 16 then
          storeMaskedAvx rows (j0 + 8) (n - 8)
            (bandValMasked A Bp alpha zero countK (n - 8) (j0 + 8)
              (storeBand rows j0 8 (bandVal A Bp alpha zero countK C) C))
            (storeBand rows j0 8 (bandVal A Bp alpha zero countK C) C)
        else if n - 16 = 0 then
          storeBand rows j0 16 (bandVal A Bp alpha zero countK C) C
        else
          fma3ColumnLoop A Bp alpha zero countK rows fuel (j0 + 16) (n - 16)
            (storeBand rows j0 16 (bandVal A Bp alpha zero countK C) C)
      else if n = 8 then
        storeBand rows j0 8 (bandVal A Bp alpha zero countK C) C
      else
        storeMaskedAvx rows j0 n
          (bandValMasked A Bp alpha zero countK n j0 C) C

/-- Column-band loop of the `ProcessCountM` macro of the AVX512F kernel
(SgemmKernelAvx512F.asm).  While more than 16 columns remain a 32-wide
block is computed; its first 16 columns are stored unmasked
(`Store32xNBlock`) and its second half goes through `Output16xNBlock`:
stored unmasked when at least 16 columns remain, otherwise stored through
the k-mask `(1 << remaining) - 1` (`Store16xNBlockWithMask`) ending the
loop.  With at most 16 columns a 16-wide block is computed
(`ProcessRemainingCountN`) and stored unmasked when exactly 16 remain,
masked otherwise.  In accumulate mode the masked `vfmadd213ps ...{k1}`
suppresses the C load and the store on unset lanes, so set lanes store
`acc * alpha + C` just like the unmasked path. -/
def avx512ColumnLoop (A Bp : Mat) (alpha : ℚ) (zero : Bool) (countK rows : ℕ) :
    ℕ → ℕ → ℕ → Mat → Mat
  | 0, _, _, C => C
  | fuel + 1, j0, n, C =>
      if 16 < n then
        if 16 ≤ n - 16 then
          if n - 32 = 0 then
            storeBand rows (j0 + 16) 16
              (bandVal A Bp alpha zero countK
                (storeBand rows j0 16 (bandVal A Bp alpha zero countK C) C))
              (storeBand rows j0 16 (bandVal A Bp alpha zero countK C) C)
          else
            avx512ColumnLoop A Bp alpha zero countK rows fuel (j0 + 32) (n - 32)
              (storeBand rows (j0 + 16) 16
                (bandVal A Bp alpha zero countK
                  (storeBand rows j0 16 (bandVal A Bp alpha zero countK C) C))
                (storeBand rows j0 16 (bandVal A Bp alpha zero countK C) C))
        else
          storeMaskedAvx512 rows (j0 + 16) (n - 16)
            (bandVal A Bp alpha zero countK
              (storeBand rows j0 16 (bandVal A Bp alpha zero countK C) C))
            (storeBand rows j0 16 (bandVal A Bp alpha zero countK C) C)
      else if n = 16 then
        storeBand rows j0 16 (bandVal A Bp alpha zero countK C) C
      else
        storeMaskedAvx512 rows j0 n (bandVal A Bp alpha zero countK C) C

/-- Row tile processed by `MlasGemmFloatKernelAvx`: `cmp r11,4 / jb`,
`cmp r11,2 / jb` dispatch to `ProcessCountM 4 / 2 / 1`. -/
def avxRowsProcessed (countM : ℕ) : ℕ :=
  if 4 ≤ countM then 4 else if 2 ≤ countM then 2 else 1

/-- Row count returned by `MlasGemmFloatKernelAvx` in `r11`: set to 4 or 2
on those paths, left at `CountM` on the one-row path. -/
def avxRowsReturned (countM : ℕ) : ℕ :=
  if 4 ≤ countM then 4 else if 2 ≤ countM then 2 else countM

/-- Row tile processed by `MlasGemmFloatKernelFma3`: the
`cmp r11,5 / cmp r11,3 / cmp r11,1` dispatch tree to
`ProcessCountM 6 / 5 / 4 / 3 / 2 / 1`. -/
def fma3RowsProcessed (countM : ℕ) : ℕ :=
  if 5 < countM then 6
  else if countM = 5 then 5
  else if 3 < countM then 4
  else if countM = 3 then 3
  else if countM = 1 then 1
  else 2

/-- Row count returned by `MlasGemmFloatKernelFma3` in `r11`: set to 6 on
the six-row path, left at `CountM` otherwise. -/
def fma3RowsReturned (countM : ℕ) : ℕ :=
  if 5 < countM then 6 else countM

/-- Row tile processed by `MlasGemmFloatKernelAvx512F`: `cmp r11,12 / jb`
then the same dispatch tree as the FMA3 kernel. -/
def avx512RowsProcessed (countM : ℕ) : ℕ :=
  if 12 ≤ countM then 12
  else if 5 < countM then 6
  else if countM = 5 then 5
  else if 3 < countM then 4
  else if countM = 3 then 3
  else if countM = 1 then 1
  else 2

/-- Row count returned by `MlasGemmFloatKernelAvx512F` in `r11`: set to 12
or 6 on those paths, left at `CountM` otherwise. -/
def avx512RowsReturned (countM : ℕ) : ℕ :=
  if 12 ≤ countM then 12 else if 5 < countM then 6 else countM

/-- The `MlasGemmFloatKernelAvx` routine: runs the AVX column-band loop
over all `CountN` columns for the dispatched row tile and returns the
updated C together with the row count reported in `r11`. -/
def MlasGemmFloatKernelAvx (A Bp C : Mat) (countK countM countN : ℕ)
    (alpha : ℚ) (zeroMode : Bool) : Mat × ℕ :=
  (avxColumnLoop A Bp alpha zeroMode countK (avxRowsProcessed countM)
    countN 0 countN C,
   avxRowsReturned countM)

/-- The `MlasGemmFloatKernelFma3` routine. -/
def MlasGemmFloatKernelFma3 (A Bp C : Mat) (countK countM countN : ℕ)
    (alpha : ℚ) (zeroMode : Bool) : Mat × ℕ :=
  (fma3ColumnLoop A Bp alpha zeroMode countK (fma3RowsProcessed countM)
    countN 0 countN C,
   fma3RowsReturned countM)

/-- The `MlasGemmFloatKernelAvx512F` routine. -/
def MlasGemmFloatKernelAvx512F (A Bp C : Mat) (countK countM countN : ℕ)
    (alpha : ℚ) (zeroMode : Bool) : Mat × ℕ :=
  (avx512ColumnLoop A Bp alpha zeroMode countK (avx512RowsProcessed countM)
    countN 0 countN C,
   avx512RowsReturned countM)

/-- One row group of `MlasSgemmKernelM1Avx`: for a group of `g` consecutive
rows of B starting at row `k0`, every output column `j < countN` is updated
to the group's partial products plus the existing C element passed through
`vandnps` with the mode mask (`discard = true` models the all-ones mask
produced by `vcmpeqss` when Beta compares equal to 0, which zeroes the C
contribution; `discard = false` models the zero mask, which passes C
through).  The 16-wide, 8-wide and lane-masked column paths of the source
(`ProcessColumnLoop4/2/1`, `ProcessRemainingCountN*`) compute this same
per-column value; lanes at columns `≥ countN` are excluded by the
`MlasMaskMoveAvx` lane mask (modelled from the spec, see `maskMoveAvx`). -/
def m1GroupUpdate (A : ℕ → ℚ) (B : ℕ → ℕ → ℚ) (countN k0 g : ℕ)
    (discard : Bool) (C : ℕ → ℚ) : ℕ → ℚ :=
  fun j =>
    if j < countN then
      (List.range g).foldl (fun acc t => acc + A (k0 + t) * B (k0 + t) j) 0
        + (if discard then 0 else C j)
    else C j

/-- Row-group loop of `MlasSgemmKernelM1Avx`: groups of 4 rows of B while
at least 4 remain (`ProcessRowLoop4`, switching the mode mask to
accumulate after each group at `ProcessedRemainingCountN4`), then a group
of 2 if bit 1 of the remaining count is set (`test r9d,2`,
`ProcessRowLoop2`) and a final single row if bit 0 is set (`test r9d,1`,
`ProcessRowLoop1`), the mode mask again switched to accumulate between
them.  `fuel` bounds the number of 4-row groups. -/
def m1RowLoop (A : ℕ → ℚ) (B : ℕ → ℕ → ℚ) (countN : ℕ) :
    ℕ → ℕ → ℕ → Bool → (ℕ → ℚ) → (ℕ → ℚ)
  | 0, _, _, _, C => C
  | fuel + 1, k0, rem, discard, C =>
      if 4 ≤ rem then
        m1RowLoop A B countN fuel (k0 + 4) (rem - 4) false
          (m1GroupUpdate A B countN k0 4 discard C)
      else
        if rem.testBit 1 then
          if rem.testBit 0 then
            m1GroupUpdate A B countN (k0 + 2) 1 false
              (m1GroupUpdate A B countN k0 2 discard C)
          else
            m1GroupUpdate A B countN k0 2 discard C
        else
          if rem.testBit 0 then m1GroupUpdate A B countN k0 1 discard C
          else C

/-- The `MlasSgemmKernelM1Avx` routine (special case M = 1, B not
transposed): the initial mode mask is `vcmpeqss` of Beta against zero, so
the existing C row is discarded exactly when Beta compares equal to 0.
`A` is the single row of the left matrix, `B j k` abstracts the `ldb`
addressing of the right matrix. -/
def MlasSgemmKernelM1Avx (A : ℕ → ℚ) (B : ℕ → ℕ → ℚ) (C : ℕ → ℚ)
    (countK countN : ℕ) (beta : ℚ) : ℕ → ℚ :=
  m1RowLoop A B countN countK 0 countK (decide (beta = 0)) C

/-- The `MlasSgemmKernelM1TransposeBAvx` routine (special case M = 1, B
transposed): each output column `j < countN` is written exactly once with
the reduction of `A` against row `j` of B (`ProcessColumnLoop4/2/1` over
`k` in 8-wide chunks plus the lane-masked tail, then the transpose/reduce
of the lane accumulators) plus the existing C element passed through
`vandnps` with the Beta-compares-equal-zero mask. -/
def MlasSgemmKernelM1TransposeBAvx (A : ℕ → ℚ) (B : ℕ → ℕ → ℚ) (C : ℕ → ℚ)
    (countK countN : ℕ) (beta : ℚ) : ℕ → ℚ :=
  fun j =>
    if j < countN then
      (List.range countK).foldl (fun acc k => acc + A k * B j k) 0
        + (if decide (beta = 0) then 0 else C j)
    else C j

/-- Left matrix of the concrete test scenario of the spec:
`A = [[1,2,3,4],[5,6,7,8],[9,10,11,12]]` (zero elsewhere). -/
def aScenario : Mat := fun i k =>
  if i = 0 then
    if k = 0 then 1 else if k = 1 then 2 else if k = 2 then 3
    else if k = 3 then 4 else 0
  else if i = 1 then
    if k = 0 then 5 else if k = 1 then 6 else if k = 2 then 7
    else if k = 3 then 8 else 0
  else if i = 2 then
    if k = 0 then 9 else if k = 1 then 10 else if k = 2 then 11
    else if k = 3 then 12 else 0
  else 0

/-- Right matrix of the concrete test scenario of the spec:
`B = [[1,0],[0,1],[1,1],[1,1]]` (zero elsewhere). -/
def bScenario : Mat := fun k j =>
  if k = 0 then (if j = 0 then 1 else 0)
  else if k = 1 then (if j = 1 then 1 else 0)
  else if k = 2 then (if j = 0 then 1 else if j = 1 then 1 else 0)
  else if k = 3 then (if j = 0 then 1 else if j = 1 then 1 else 0)
  else 0

/-- A C buffer pre-filled with garbage, to witness that ZeroMode ignores
the prior contents. -/
def cGarbage : Mat := fun _ _ => 99

/-- The all-ones matrix, used for concrete counterexample inputs. -/
def oneMat : Mat := fun _ _ => 1

theorem foldl_add_eq_sum (f : ℕ → ℚ) :
    ∀ n : ℕ, (List.range n).foldl (fun acc k => acc + f k) 0
      = ∑ k ∈ Finset.range n, f k := by
  intro n
  induction n with
  | zero => simp
  | succ n ih =>
      rw [List.range_succ, List.foldl_append, Finset.sum_range_succ, ih]
      rfl

theorem computeBlockLoop_eq_sum (A Bp : Mat) (countK i j : ℕ) :
    computeBlockLoop A Bp countK i j
      = ∑ k ∈ Finset.range countK, A i k * Bp k j :=
  foldl_add_eq_sum (fun k => A i k * Bp k j) countK

theorem avxColumnLoop_spec (A Bp : Mat) (alpha : ℚ) (zero : Bool)
    (countK rows : ℕ) :
    ∀ fuel j0 n C, n ≤ fuel → ∀ i j,
      avxColumnLoop A Bp alpha zero countK rows fuel j0 n C i j =
        if i < rows ∧ j0 ≤ j ∧ j < j0 + n then
          bandVal A Bp alpha zero countK C i j
        else C i j := by
  intro fuel
  induction fuel with
  | zero =>
      intro j0 n C hn i j
      have hn0 : n = 0 := Nat.le_zero.mp hn
      subst hn0
      rw [avxColumnLoop, if_neg (by omega)]
  | succ fuel ih =>
      intro j0 n C hn i j
      rw [avxColumnLoop]
      by_cases h8 : 8 < n
      · rw [if_pos h8]
        by_cases h16 : n < 16
        · rw [if_pos h16]
          simp only [storeMaskedAvx, storeBand, bandValMasked, bandVal,
            avxLaneMask, maskMoveAvx, decide_eq_true_eq]
          split_ifs <;> first | rfl | omega
        · rw [if_neg h16]
          by_cases hz : n - 16 = 0
          · rw [if_pos hz]
            simp only [storeBand, bandVal]
            split_ifs <;> first | rfl | omega
          · rw [if_neg hz]
            rw [ih (j0 + 16) (n - 16) _ (by omega)]
            simp only [storeBand, bandVal]
            split_ifs <;> first | rfl | omega
      · rw [if_neg h8]
        by_cases heq : n = 8
        · rw [if_pos heq]
          subst heq
          simp only [storeBand, bandVal]
        · rw [if_neg heq]
          simp only [storeMaskedAvx, bandValMasked, bandVal,
            avxLaneMask, maskMoveAvx, decide_eq_true_eq]
          split_ifs <;> first | rfl | omega

theorem fma3ColumnLoop_spec (A Bp : Mat) (alpha : ℚ) (zero : Bool)
    (countK rows : ℕ) :
    ∀ fuel j0 n C, n ≤ fuel → ∀ i j,
      fma3ColumnLoop A Bp alpha zero countK rows fuel j0 n C i j =
        if i < rows ∧ j0 ≤ j ∧ j < j0 + n then
          bandVal A Bp alpha zero countK C i j
        else C i j := by
  intro fuel
  induction fuel with
  | zero =>
      intro j0 n C hn i j
      have hn0 : n = 0 := Nat.le_zero.mp hn
      subst hn0
      rw [fma3ColumnLoop, if_neg (by omega)]
  | succ fuel ih =>
      intro j0 n C hn i j
      rw [fma3ColumnLoop]
      by_cases h8 : 8 < n
      · rw [if_pos h8]
        by_cases h16 : n < 16
        · rw [if_pos h16]
          simp only [storeMaskedAvx, storeBand, bandValMasked, bandVal,
            avxLaneMask, maskMoveAvx, decide_eq_true_eq]
          split_ifs <;> first | rfl | omega
        · rw [if_neg h16]
          by_cases hz : n - 16 = 0
          · rw [if_pos hz]
            simp only [storeBand, bandVal]
            split_ifs <;> first | rfl | omega
          · rw [if_neg hz]
            rw [ih (j0 + 16) (n - 16) _ (by omega)]
            simp only [storeBand, bandVal]
            split_ifs <;> first | rfl | omega
      · rw [if_neg h8]
        by_cases heq : n = 8
        · rw [if_pos heq]
          subst heq
          simp only [storeBand, bandVal]
        · rw [if_neg heq]
          simp only [storeMaskedAvx, bandValMasked, bandVal,
            avxLaneMask, maskMoveAvx, decide_eq_true_eq]
          split_ifs <;> first | rfl | omega

theorem testBit_avx512Mask (n lane : ℕ) :
    (avx512Mask n).testBit lane = decide (lane < n) := by
  have h1 : (1 <<< n : ℕ) = 2 ^ n := Nat.one_shiftLeft n
  rw [avx512Mask, h1, Nat.testBit_two_pow_sub_one]

theorem avx512ColumnLoop_spec (A Bp : Mat) (alpha : ℚ) (zero : Bool)
    (countK rows : ℕ) :
    ∀ fuel j0 n C, n ≤ fuel → ∀ i j,
      avx512ColumnLoop A Bp alpha zero countK rows fuel j0 n C i j =
        if i < rows ∧ j0 ≤ j ∧ j < j0 + n then
          bandVal A Bp alpha zero countK C i j
        else C i j := by
  intro fuel
  induction fuel with
  | zero =>
      intro j0 n C hn i j
      have hn0 : n = 0 := Nat.le_zero.mp hn
      subst hn0
      rw [avx512ColumnLoop, if_neg (by omega)]
  | succ fuel ih =>
      intro j0 n C hn i j
      rw [avx512ColumnLoop]
      by_cases h16 : 16 < n
      · rw [if_pos h16]
        by_cases h32 : 16 ≤ n - 16
        · rw [if_pos h32]
          by_cases hz : n - 32 = 0
          · rw [if_pos hz]
            simp only [storeBand, bandVal]
            split_ifs <;> first | rfl | omega
          · rw [if_neg hz]
            rw [ih (j0 + 32) (n - 32) _ (by omega)]
            simp only [storeBand, bandVal]
            split_ifs <;> first | rfl | omega
        · rw [if_neg h32]
          simp only [storeMaskedAvx512, storeBand, bandVal,
            testBit_avx512Mask, decide_eq_true_eq]
          split_ifs <;> first | rfl | omega
      · rw [if_neg h16]
        by_cases heq : n = 16
        · rw [if_pos heq]
          subst heq
          simp only [storeBand, bandVal]
        · rw [if_neg heq]
          simp only [storeMaskedAvx512, bandVal,
            testBit_avx512Mask, decide_eq_true_eq]
          split_ifs <;> first | rfl | omega

theorem kernelAvx_cell (A Bp C : Mat) (countK countM countN : ℕ)
    (alpha : ℚ) (zm : Bool) (i j : ℕ) :
    (MlasGemmFloatKernelAvx A Bp C countK countM countN alpha zm).1 i j =
      if i < avxRowsProcessed countM ∧ j < countN then
        bandVal A Bp alpha zm countK C i j
      else C i j := by
  rw [MlasGemmFloatKernelAvx]
  dsimp only
  rw [avxColumnLoop_spec A Bp alpha zm countK _ countN 0 countN C le_rfl i j]
  simp only [Nat.zero_le, Nat.zero_add, true_and]

theorem kernelFma3_cell (A Bp C : Mat) (countK countM countN : ℕ)
    (alpha : ℚ) (zm : Bool) (i j : ℕ) :
    (MlasGemmFloatKernelFma3 A Bp C countK countM countN alpha zm).1 i j =
      if i < fma3RowsProcessed countM ∧ j < countN then
        bandVal A Bp alpha zm countK C i j
      else C i j := by
  rw [MlasGemmFloatKernelFma3]
  dsimp only
  rw [fma3ColumnLoop_spec A Bp alpha zm countK _ countN 0 countN C le_rfl i j]
  simp only [Nat.zero_le, Nat.zero_add, true_and]

theorem kernelAvx512_cell (A Bp C : Mat) (countK countM countN : ℕ)
    (alpha : ℚ) (zm : Bool) (i j : ℕ) :
    (MlasGemmFloatKernelAvx512F A Bp C countK countM countN alpha zm).1 i j =
      if i < avx512RowsProcessed countM ∧ j < countN then
        bandVal A Bp alpha zm countK C i j
      else C i j := by
  rw [MlasGemmFloatKernelAvx512F]
  dsimp only
  rw [avx512ColumnLoop_spec A Bp alpha zm countK _ countN 0 countN C le_rfl i j]
  simp only [Nat.zero_le, Nat.zero_add, true_and]

theorem sum_range_split (f : ℕ → ℚ) (a b : ℕ) :
    ∑ t ∈ Finset.range (a + b), f t
      = (∑ t ∈ Finset.range a, f t) + ∑ t ∈ Finset.range b, f (a + t) := by
  induction b with
  | zero => simp
  | succ b ih =>
      rw [← Nat.add_assoc, Finset.sum_range_succ, Finset.sum_range_succ, ih,
        add_assoc]

theorem m1GroupUpdate_eq (A : ℕ → ℚ) (B : ℕ → ℕ → ℚ) (countN k0 g : ℕ)
    (discard : Bool) (C : ℕ → ℚ) (j : ℕ) (hj : j < countN) :
    m1GroupUpdate A B countN k0 g discard C j
      = (∑ t ∈ Finset.range g, A (k0 + t) * B (k0 + t) j)
        + (if discard then 0 else C j) := by
  rw [m1GroupUpdate, if_pos hj,
    foldl_add_eq_sum (fun t => A (k0 + t) * B (k0 + t) j) g]

theorem m1RowLoop_spec (A : ℕ → ℚ) (B : ℕ → ℕ → ℚ) (countN : ℕ) :
    ∀ fuel k0 rem discard C, 1 ≤ rem → rem ≤ fuel → ∀ j, j < countN →
      m1RowLoop A B countN fuel k0 rem discard C j
        = (∑ t ∈ Finset.range rem, A (k0 + t) * B (k0 + t) j)
          + (if discard then 0 else C j) := by
  intro fuel
  induction fuel with
  | zero => intro k0 rem discard C h1 hf j hj; omega
  | succ fuel ih =>
      intro k0 rem discard C h1 hf j hj
      rw [m1RowLoop]
      by_cases h4 : 4 ≤ rem
      · rw [if_pos h4]
        by_cases hz : rem - 4 = 0
        · have hrem : rem = 4 := by omega
          subst hrem
          have : ∀ fu C', m1RowLoop A B countN fu (k0 + 4) 0 false C' = C' := by
            intro fu C'
            cases fu with
            | zero => rw [m1RowLoop]
            | succ fu =>
                rw [m1RowLoop]
                simp
          rw [this]
          exact m1GroupUpdate_eq A B countN k0 4 discard C j hj
        · rw [ih (k0 + 4) (rem - 4) false _ (by omega) (by omega) j hj]
          rw [m1GroupUpdate_eq A B countN k0 4 discard C j hj]
          have hsplit := sum_range_split
            (fun t => A (k0 + t) * B (k0 + t) j) 4 (rem - 4)
          have h44 : 4 + (rem - 4) = rem := by omega
          rw [h44] at hsplit
          rw [hsplit]
          simp only [if_neg Bool.false_ne_true]
          have : ∀ t, A (k0 + 4 + t) * B (k0 + 4 + t) j
              = A (k0 + (4 + t)) * B (k0 + (4 + t)) j := by
            intro t; rw [Nat.add_assoc]
          rw [Finset.sum_congr rfl fun t _ => this t]
          ring
      · rw [if_neg h4]
        have hcases : rem = 1 ∨ rem = 2 ∨ rem = 3 := by omega
        rcases hcases with h | h | h <;> subst h
        · rw [if_neg (show ¬ Nat.testBit 1 1 = true by decide),
            if_pos (show Nat.testBit 1 0 = true by decide),
            m1GroupUpdate_eq A B countN k0 1 discard C j hj]
        · rw [if_pos (show Nat.testBit 2 1 = true by decide),
            if_neg (show ¬ Nat.testBit 2 0 = true by decide),
            m1GroupUpdate_eq A B countN k0 2 discard C j hj]
        · rw [if_pos (show Nat.testBit 3 1 = true by decide),
            if_pos (show Nat.testBit 3 0 = true by decide),
            m1GroupUpdate_eq A B countN (k0 + 2) 1 false _ j hj,
            m1GroupUpdate_eq A B countN k0 2 discard C j hj]
          rw [if_neg (show ¬ (false = true) by decide)]
          simp only [Finset.sum_range_succ, Finset.sum_range_zero,
            Nat.add_zero, zero_add]
          ring

theorem bandVal_eq (A Bp : Mat) (alpha : ℚ) (zm : Bool) (countK : ℕ)
    (C : Mat) (i j : ℕ) :
    bandVal A Bp alpha zm countK C i j
      = alpha * (∑ k ∈ Finset.range countK, A i k * Bp k j)
        + (if zm then 0 else C i j) := by
  rw [bandVal, computeBlockLoop_eq_sum]
  cases zm
  · simp [mul_comm]
  · simp [mul_comm]

theorem kernelAvx_written_zero (A Bp C : Mat) (countK countM countN : ℕ)
    (alpha : ℚ) (i j : ℕ) (hi : i < avxRowsProcessed countM)
    (hj : j < countN) :
    (MlasGemmFloatKernelAvx A Bp C countK countM countN alpha true).1 i j
      = alpha * (∑ k ∈ Finset.range countK, A i k * Bp k j) := by
  rw [kernelAvx_cell, if_pos ⟨hi, hj⟩, bandVal_eq]
  simp

theorem kernelAvx_written_acc (A Bp C : Mat) (countK countM countN : ℕ)
    (alpha : ℚ) (i j : ℕ) (hi : i < avxRowsProcessed countM)
    (hj : j < countN) :
    (MlasGemmFloatKernelAvx A Bp C countK countM countN alpha false).1 i j
      = alpha * (∑ k ∈ Finset.range countK, A i k * Bp k j) + C i j := by
  rw [kernelAvx_cell, if_pos ⟨hi, hj⟩, bandVal_eq]
  simp

theorem kernelAvx512_written_zero (A Bp C : Mat) (countK countM countN : ℕ)
    (alpha : ℚ) (i j : ℕ) (hi : i < avx512RowsProcessed countM)
    (hj : j < countN) :
    (MlasGemmFloatKernelAvx512F A Bp C countK countM countN alpha
        true).1 i j
      = alpha * (∑ k ∈ Finset.range countK, A i k * Bp k j) := by
  rw [kernelAvx512_cell, if_pos ⟨hi, hj⟩, bandVal_eq]
  simp

theorem kernelAvx512_written_acc (A Bp C : Mat) (countK countM countN : ℕ)
    (alpha : ℚ) (i j : ℕ) (hi : i < avx512RowsProcessed countM)
    (hj : j < countN) :
    (MlasGemmFloatKernelAvx512F A Bp C countK countM countN alpha
        false).1 i j
      = alpha * (∑ k ∈ Finset.range countK, A i k * Bp k j) + C i j := by
  rw [kernelAvx512_cell, if_pos ⟨hi, hj⟩, bandVal_eq]
  simp

/-- Claim C1: for every invocation of a SGEMM micro-kernel variant
(`MlasGemmFloatKernelAvx`, `MlasGemmFloatKernelFma3`,
`MlasGemmFloatKernelAvx512F`) with valid packed inputs, every output
element written to C equals `alpha * (sum over k < CountK of
A[i,k] * B_packed[k,j])` plus, when ZeroMode is false, the pre-existing
value of the same C element; when ZeroMode is true no pre-existing C value
is read (the written output is independent of the prior C contents). -/
theorem claim_C1 (A Bp C Cother : Mat) (countK countM countN : ℕ)
    (alpha : ℚ) (zm : Bool) :
    (∀ i j, i < avxRowsProcessed countM → j < countN →
      (MlasGemmFloatKernelAvx A Bp C countK countM countN alpha zm).1 i j
        = alpha * (∑ k ∈ Finset.range countK, A i k * Bp k j)
          + (if zm then 0 else C i j)
      ∧ (MlasGemmFloatKernelAvx A Bp C countK countM countN alpha true).1 i j
        = (MlasGemmFloatKernelAvx A Bp Cother countK countM countN alpha
            true).1 i j)
    ∧ (∀ i j, i < fma3RowsProcessed countM → j < countN →
      (MlasGemmFloatKernelFma3 A Bp C countK countM countN alpha zm).1 i j
        = alpha * (∑ k ∈ Finset.range countK, A i k * Bp k j)
          + (if zm then 0 else C i j)
      ∧ (MlasGemmFloatKernelFma3 A Bp C countK countM countN alpha true).1 i j
        = (MlasGemmFloatKernelFma3 A Bp Cother countK countM countN alpha
            true).1 i j)
    ∧ (∀ i j, i < avx512RowsProcessed countM → j < countN →
      (MlasGemmFloatKernelAvx512F A Bp C countK countM countN alpha zm).1 i j
        = alpha * (∑ k ∈ Finset.range countK, A i k * Bp k j)
          + (if zm then 0 else C i j)
      ∧ (MlasGemmFloatKernelAvx512F A Bp C countK countM countN alpha
            true).1 i j
        = (MlasGemmFloatKernelAvx512F A Bp Cother countK countM countN alpha
            true).1 i j) := by
  refine ⟨fun i j hi hj => ⟨?_, ?_⟩, fun i j hi hj => ⟨?_, ?_⟩,
    fun i j hi hj => ⟨?_, ?_⟩⟩
  · rw [kernelAvx_cell, if_pos ⟨hi, hj⟩, bandVal_eq]
  · rw [kernelAvx_cell, if_pos ⟨hi, hj⟩, kernelAvx_cell, if_pos ⟨hi, hj⟩]
    simp [bandVal]
  · rw [kernelFma3_cell, if_pos ⟨hi, hj⟩, bandVal_eq]
  · rw [kernelFma3_cell, if_pos ⟨hi, hj⟩, kernelFma3_cell, if_pos ⟨hi, hj⟩]
    simp [bandVal]
  · rw [kernelAvx512_cell, if_pos ⟨hi, hj⟩, bandVal_eq]
  · rw [kernelAvx512_cell, if_pos ⟨hi, hj⟩, kernelAvx512_cell,
      if_pos ⟨hi, hj⟩]
    simp [bandVal]

theorem claim_C1_witness :
    (MlasGemmFloatKernelAvx aScenario bScenario cGarbage 4 3 2 1 false).1 0 0
      = 1 * (∑ k ∈ Finset.range 4, aScenario 0 k * bScenario k 0)
        + (if false then 0 else cGarbage 0 0)
    ∧ (MlasGemmFloatKernelAvx aScenario bScenario cGarbage 4 3 2 1
        true).1 0 0
      = (MlasGemmFloatKernelAvx aScenario bScenario (fun _ _ => 0) 4 3 2 1
          true).1 0 0 :=
  (claim_C1 aScenario bScenario cGarbage (fun _ _ => 0) 4 3 2 1 false).1
    0 0 (by decide) (by decide)

/-- Claim C2: for the single input `M=3, N=2, K=4, alpha=1, beta=0`
(ZeroMode true), `A=[[1,2,3,4],[5,6,7,8],[9,10,11,12]]` and
`B=[[1,0],[0,1],[1,1],[1,1]]`, the SGEMM kernel (FMA3 and AVX512F
variants, which both handle the 3-row tile) produces exactly
`C=[[8,9],[20,21],[32,33]]`; the arithmetic is exact. -/
theorem claim_C2 :
    ((MlasGemmFloatKernelFma3 aScenario bScenario cGarbage 4 3 2 1
        true).1 0 0 = 8
    ∧ (MlasGemmFloatKernelFma3 aScenario bScenario cGarbage 4 3 2 1
        true).1 0 1 = 9
    ∧ (MlasGemmFloatKernelFma3 aScenario bScenario cGarbage 4 3 2 1
        true).1 1 0 = 20
    ∧ (MlasGemmFloatKernelFma3 aScenario bScenario cGarbage 4 3 2 1
        true).1 1 1 = 21
    ∧ (MlasGemmFloatKernelFma3 aScenario bScenario cGarbage 4 3 2 1
        true).1 2 0 = 32
    ∧ (MlasGemmFloatKernelFma3 aScenario bScenario cGarbage 4 3 2 1
        true).1 2 1 = 33)
    ∧ ((MlasGemmFloatKernelAvx512F aScenario bScenario cGarbage 4 3 2 1
        true).1 0 0 = 8
    ∧ (MlasGemmFloatKernelAvx512F aScenario bScenario cGarbage 4 3 2 1
        true).1 0 1 = 9
    ∧ (MlasGemmFloatKernelAvx512F aScenario bScenario cGarbage 4 3 2 1
        true).1 1 0 = 20
    ∧ (MlasGemmFloatKernelAvx512F aScenario bScenario cGarbage 4 3 2 1
        true).1 1 1 = 21
    ∧ (MlasGemmFloatKernelAvx512F aScenario bScenario cGarbage 4 3 2 1
        true).1 2 0 = 32
    ∧ (MlasGemmFloatKernelAvx512F aScenario bScenario cGarbage 4 3 2 1
        true).1 2 1 = 33) := by
  refine ⟨⟨?_, ?_, ?_, ?_, ?_, ?_⟩, ?_, ?_, ?_, ?_, ?_, ?_⟩
  all_goals
    first
      | rw [kernelFma3_cell, if_pos (by decide), bandVal_eq]
      | rw [kernelAvx512_cell, if_pos (by decide), bandVal_eq]
  all_goals
    norm_num [Finset.sum_range_succ, aScenario, bScenario]

/-- Claim C3: for every `CountM ≥ 1` each micro-kernel variant processes
the largest row tile it supports that is at most `CountM` and returns
exactly that row count: the AVX kernel returns 4 / 2 / 1, the FMA3 kernel
returns `min CountM 6`, the AVX512F kernel returns 12 / 6 / `CountM`; the
returned value is the processed tile and lies between 1 and `CountM`. -/
theorem claim_C3 (A Bp C : Mat) (countK countN : ℕ) (alpha : ℚ) (zm : Bool)
    (countM : ℕ) (h : 1 ≤ countM) :
    ((MlasGemmFloatKernelAvx A Bp C countK countM countN alpha zm).2
      = if 4 ≤ countM then 4 else if 2 ≤ countM then 2 else 1)
    ∧ ((MlasGemmFloatKernelFma3 A Bp C countK countM countN alpha zm).2
      = min countM 6)
    ∧ ((MlasGemmFloatKernelAvx512F A Bp C countK countM countN alpha zm).2
      = if 12 ≤ countM then 12 else if 6 ≤ countM then 6 else countM)
    ∧ ((MlasGemmFloatKernelAvx A Bp C countK countM countN alpha zm).2
      = avxRowsProcessed countM)
    ∧ ((MlasGemmFloatKernelFma3 A Bp C countK countM countN alpha zm).2
      = fma3RowsProcessed countM)
    ∧ ((MlasGemmFloatKernelAvx512F A Bp C countK countM countN alpha zm).2
      = avx512RowsProcessed countM)
    ∧ (1 ≤ (MlasGemmFloatKernelAvx A Bp C countK countM countN alpha zm).2
      ∧ (MlasGemmFloatKernelAvx A Bp C countK countM countN alpha zm).2
        ≤ countM)
    ∧ (1 ≤ (MlasGemmFloatKernelFma3 A Bp C countK countM countN alpha zm).2
      ∧ (MlasGemmFloatKernelFma3 A Bp C countK countM countN alpha zm).2
        ≤ countM)
    ∧ (1 ≤ (MlasGemmFloatKernelAvx512F A Bp C countK countM countN
          alpha zm).2
      ∧ (MlasGemmFloatKernelAvx512F A Bp C countK countM countN alpha zm).2
        ≤ countM) := by
  simp only [MlasGemmFloatKernelAvx, MlasGemmFloatKernelFma3,
    MlasGemmFloatKernelAvx512F, avxRowsReturned, fma3RowsReturned,
    avx512RowsReturned, avxRowsProcessed, fma3RowsProcessed,
    avx512RowsProcessed]
  refine ⟨?_, ?_, ?_, ?_, ?_, ?_, ?_, ?_, ?_⟩ <;> split_ifs <;> omega

theorem claim_C3_witness :
    ((MlasGemmFloatKernelAvx aScenario bScenario cGarbage 4 7 2 1
        true).2 = if 4 ≤ 7 then 4 else if 2 ≤ 7 then 2 else 1)
    ∧ ((MlasGemmFloatKernelFma3 aScenario bScenario cGarbage 4 7 2 1
        true).2 = min 7 6)
    ∧ ((MlasGemmFloatKernelAvx512F aScenario bScenario cGarbage 4 7 2 1
        true).2 = if 12 ≤ 7 then 12 else if 6 ≤ 7 then 6 else 7)
    ∧ ((MlasGemmFloatKernelAvx aScenario bScenario cGarbage 4 7 2 1
        true).2 = avxRowsProcessed 7)
    ∧ ((MlasGemmFloatKernelFma3 aScenario bScenario cGarbage 4 7 2 1
        true).2 = fma3RowsProcessed 7)
    ∧ ((MlasGemmFloatKernelAvx512F aScenario bScenario cGarbage 4 7 2 1
        true).2 = avx512RowsProcessed 7)
    ∧ (1 ≤ (MlasGemmFloatKernelAvx aScenario bScenario cGarbage 4 7 2 1
        true).2
      ∧ (MlasGemmFloatKernelAvx aScenario bScenario cGarbage 4 7 2 1
        true).2 ≤ 7)
    ∧ (1 ≤ (MlasGemmFloatKernelFma3 aScenario bScenario cGarbage 4 7 2 1
        true).2
      ∧ (MlasGemmFloatKernelFma3 aScenario bScenario cGarbage 4 7 2 1
        true).2 ≤ 7)
    ∧ (1 ≤ (MlasGemmFloatKernelAvx512F aScenario bScenario cGarbage 4 7 2 1
        true).2
      ∧ (MlasGemmFloatKernelAvx512F aScenario bScenario cGarbage 4 7 2 1
        true).2 ≤ 7) :=
  claim_C3 aScenario bScenario cGarbage 4 2 1 true 7 (by decide)

/-- Claim C4: for every CountN not a multiple of the variant band width,
the final partial column band of C is accessed only through a mask whose
set lanes are exactly the first `remaining` lanes — built by comparing the
remaining column count against the `MlasMaskMoveAvx` table for AVX/FMA3
and as the k-mask `(1 << remaining) - 1` for AVX512F — so no element of C
at column index at least CountN is ever read or written. -/
theorem claim_C4 (A Bp C Cother : Mat) (countK countM countN : ℕ)
    (alpha : ℚ) (zm : Bool)
    (hagree : ∀ i j, j < countN → C i j = Cother i j) :
    (∀ n lane, avxLaneMask n lane = true ↔ lane < n)
    ∧ (∀ n lane, (avx512Mask n).testBit lane = true ↔ lane < n)
    ∧ (∀ i j, countN ≤ j →
      (MlasGemmFloatKernelAvx A Bp C countK countM countN alpha zm).1 i j
        = C i j
      ∧ (MlasGemmFloatKernelFma3 A Bp C countK countM countN alpha zm).1 i j
        = C i j
      ∧ (MlasGemmFloatKernelAvx512F A Bp C countK countM countN alpha
          zm).1 i j = C i j)
    ∧ (∀ i j, j < countN →
      (MlasGemmFloatKernelAvx A Bp C countK countM countN alpha zm).1 i j
        = (MlasGemmFloatKernelAvx A Bp Cother countK countM countN alpha
            zm).1 i j
      ∧ (MlasGemmFloatKernelFma3 A Bp C countK countM countN alpha zm).1 i j
        = (MlasGemmFloatKernelFma3 A Bp Cother countK countM countN alpha
            zm).1 i j
      ∧ (MlasGemmFloatKernelAvx512F A Bp C countK countM countN alpha
          zm).1 i j
        = (MlasGemmFloatKernelAvx512F A Bp Cother countK countM countN alpha
            zm).1 i j) := by
  refine ⟨?_, ?_, ?_, ?_⟩
  · intro n lane
    simp [avxLaneMask, maskMoveAvx]
  · intro n lane
    rw [testBit_avx512Mask]
    simp
  · intro i j hj
    refine ⟨?_, ?_, ?_⟩
    · rw [kernelAvx_cell, if_neg (by omega)]
    · rw [kernelFma3_cell, if_neg (by omega)]
    · rw [kernelAvx512_cell, if_neg (by omega)]
  · intro i j hj
    refine ⟨?_, ?_, ?_⟩
    · rw [kernelAvx_cell, kernelAvx_cell]
      by_cases hc : i < avxRowsProcessed countM ∧ j < countN
      · rw [if_pos hc, if_pos hc]
        simp [bandVal, hagree i j hj]
      · rw [if_neg hc, if_neg hc]
        exact hagree i j hj
    · rw [kernelFma3_cell, kernelFma3_cell]
      by_cases hc : i < fma3RowsProcessed countM ∧ j < countN
      · rw [if_pos hc, if_pos hc]
        simp [bandVal, hagree i j hj]
      · rw [if_neg hc, if_neg hc]
        exact hagree i j hj
    · rw [kernelAvx512_cell, kernelAvx512_cell]
      by_cases hc : i < avx512RowsProcessed countM ∧ j < countN
      · rw [if_pos hc, if_pos hc]
        simp [bandVal, hagree i j hj]
      · rw [if_neg hc, if_neg hc]
        exact hagree i j hj

theorem claim_C4_witness :
    (avxLaneMask 3 1 = true ↔ 1 < 3)
    ∧ ((avx512Mask 5 ).testBit 7 = true ↔ 7 < 5)
    ∧ ((MlasGemmFloatKernelAvx aScenario bScenario cGarbage 4 3 2 1
        true).1 0 5 = cGarbage 0 5
      ∧ (MlasGemmFloatKernelFma3 aScenario bScenario cGarbage 4 3 2 1
        true).1 0 5 = cGarbage 0 5
      ∧ (MlasGemmFloatKernelAvx512F aScenario bScenario cGarbage 4 3 2 1
        true).1 0 5 = cGarbage 0 5)
    ∧ ((MlasGemmFloatKernelAvx aScenario bScenario cGarbage 4 3 2 1
        true).1 0 1
        = (MlasGemmFloatKernelAvx aScenario bScenario cGarbage 4 3 2 1
          true).1 0 1
      ∧ (MlasGemmFloatKernelFma3 aScenario bScenario cGarbage 4 3 2 1
        true).1 0 1
        = (MlasGemmFloatKernelFma3 aScenario bScenario cGarbage 4 3 2 1
          true).1 0 1
      ∧ (MlasGemmFloatKernelAvx512F aScenario bScenario cGarbage 4 3 2 1
        true).1 0 1
        = (MlasGemmFloatKernelAvx512F aScenario bScenario cGarbage 4 3 2 1
          true).1 0 1) := by
  have h := claim_C4 aScenario bScenario cGarbage cGarbage 4 3 2 1 true
    (fun _ _ _ => rfl)
  exact ⟨h.1 3 1, h.2.1 5 7, h.2.2.1 0 5 (by decide), h.2.2.2 0 1 (by decide)⟩

/-- Claim C5: two-run noninterference on the initial contents of C — for
any two initial C buffers and identical A, B, alpha and dimensions,
invoking a micro-kernel with ZeroMode true produces identical values in
every written element of C; the written output never depends on the prior
contents of C. -/
theorem claim_C5 (A Bp C Cother : Mat) (countK countM countN : ℕ)
    (alpha : ℚ) :
    ∀ i j, j < countN →
      (i < avxRowsProcessed countM →
        (MlasGemmFloatKernelAvx A Bp C countK countM countN alpha true).1 i j
          = (MlasGemmFloatKernelAvx A Bp Cother countK countM countN alpha
              true).1 i j)
      ∧ (i < fma3RowsProcessed countM →
        (MlasGemmFloatKernelFma3 A Bp C countK countM countN alpha
            true).1 i j
          = (MlasGemmFloatKernelFma3 A Bp Cother countK countM countN alpha
              true).1 i j)
      ∧ (i < avx512RowsProcessed countM →
        (MlasGemmFloatKernelAvx512F A Bp C countK countM countN alpha
            true).1 i j
          = (MlasGemmFloatKernelAvx512F A Bp Cother countK countM countN
              alpha true).1 i j) := by
  intro i j hj
  refine ⟨fun hi => ?_, fun hi => ?_, fun hi => ?_⟩
  · rw [kernelAvx_cell, kernelAvx_cell, if_pos ⟨hi, hj⟩, if_pos ⟨hi, hj⟩]
    simp [bandVal]
  · rw [kernelFma3_cell, kernelFma3_cell, if_pos ⟨hi, hj⟩, if_pos ⟨hi, hj⟩]
    simp [bandVal]
  · rw [kernelAvx512_cell, kernelAvx512_cell, if_pos ⟨hi, hj⟩,
      if_pos ⟨hi, hj⟩]
    simp [bandVal]

theorem claim_C5_witness :
    ((MlasGemmFloatKernelAvx aScenario bScenario cGarbage 4 3 2 1
        true).1 0 0
      = (MlasGemmFloatKernelAvx aScenario bScenario (fun _ _ => 7) 4 3 2 1
          true).1 0 0)
    ∧ ((MlasGemmFloatKernelFma3 aScenario bScenario cGarbage 4 3 2 1
        true).1 0 0
      = (MlasGemmFloatKernelFma3 aScenario bScenario (fun _ _ => 7) 4 3 2 1
          true).1 0 0)
    ∧ ((MlasGemmFloatKernelAvx512F aScenario bScenario cGarbage 4 3 2 1
        true).1 0 0
      = (MlasGemmFloatKernelAvx512F aScenario bScenario (fun _ _ => 7)
          4 3 2 1 true).1 0 0) := by
  have h := claim_C5 aScenario bScenario cGarbage (fun _ _ => 7) 4 3 2 1
    0 0 (by decide)
  exact ⟨h.1 (by decide), h.2.1 (by decide), h.2.2 (by decide)⟩

/-- Claim C6 counterexample: with `A = B = [[1]]`, `alpha = 1` and initial
`C = [[1]]`, running the AVX kernel once with ZeroMode true and then again
with ZeroMode false yields `2`, not the claimed
`alpha*A*B + (alpha*A*B + C_initial) = 3`: the ZeroMode true first call
discards `C_initial`. -/
theorem claim_C6_counterexample :
    ¬ ((MlasGemmFloatKernelAvx oneMat oneMat
          (MlasGemmFloatKernelAvx oneMat oneMat oneMat 1 1 1 1 true).1
          1 1 1 1 false).1 0 0
        = 1 * (∑ k ∈ Finset.range 1, oneMat 0 k * oneMat k 0)
          + (1 * (∑ k ∈ Finset.range 1, oneMat 0 k * oneMat k 0)
            + oneMat 0 0)) := by
  rw [kernelAvx_written_acc oneMat oneMat _ 1 1 1 1 0 0 (by decide)
      (by decide),
    kernelAvx_written_zero oneMat oneMat oneMat 1 1 1 1 0 0 (by decide)
      (by decide)]
  norm_num [Finset.sum_range_succ, oneMat]

/-- Claim C6 amended: the ZeroMode true first call discards the initial C,
so performing the computation once with ZeroMode true and then a second
time with ZeroMode false yields `alpha*A*B + (alpha*A*B + 0)` in each
written element; the spec formula `alpha*A*B + (alpha*A*B + C_initial)`
holds when the first call instead uses ZeroMode false.  In both shapes the
ZeroMode false call adds exactly the new alpha-scaled product to whatever
C already holds. -/
theorem claim_C6_amended (A Bp C : Mat) (countK countM countN : ℕ)
    (alpha : ℚ) :
    ∀ i j, j < countN →
      (i < avxRowsProcessed countM →
        (MlasGemmFloatKernelAvx A Bp
            (MlasGemmFloatKernelAvx A Bp C countK countM countN alpha
              true).1 countK countM countN alpha false).1 i j
          = alpha * (∑ k ∈ Finset.range countK, A i k * Bp k j)
            + (alpha * (∑ k ∈ Finset.range countK, A i k * Bp k j) + 0)
        ∧ (MlasGemmFloatKernelAvx A Bp
            (MlasGemmFloatKernelAvx A Bp C countK countM countN alpha
              false).1 countK countM countN alpha false).1 i j
          = alpha * (∑ k ∈ Finset.range countK, A i k * Bp k j)
            + (alpha * (∑ k ∈ Finset.range countK, A i k * Bp k j)
              + C i j))
      ∧ (i < avx512RowsProcessed countM →
        (MlasGemmFloatKernelAvx512F A Bp
            (MlasGemmFloatKernelAvx512F A Bp C countK countM countN alpha
              true).1 countK countM countN alpha false).1 i j
          = alpha * (∑ k ∈ Finset.range countK, A i k * Bp k j)
            + (alpha * (∑ k ∈ Finset.range countK, A i k * Bp k j) + 0)
        ∧ (MlasGemmFloatKernelAvx512F A Bp
            (MlasGemmFloatKernelAvx512F A Bp C countK countM countN alpha
              false).1 countK countM countN alpha false).1 i j
          = alpha * (∑ k ∈ Finset.range countK, A i k * Bp k j)
            + (alpha * (∑ k ∈ Finset.range countK, A i k * Bp k j)
              + C i j)) := by
  intro i j hj
  constructor
  · intro hi
    constructor
    · rw [kernelAvx_written_acc A Bp _ countK countM countN alpha i j hi hj,
        kernelAvx_written_zero A Bp C countK countM countN alpha i j hi hj]
      ring
    · rw [kernelAvx_written_acc A Bp _ countK countM countN alpha i j hi hj,
        kernelAvx_written_acc A Bp C countK countM countN alpha i j hi hj]
  · intro hi
    constructor
    · rw [kernelAvx512_written_acc A Bp _ countK countM countN alpha i j hi
          hj,
        kernelAvx512_written_zero A Bp C countK countM countN alpha i j hi
          hj]
      ring
    · rw [kernelAvx512_written_acc A Bp _ countK countM countN alpha i j hi
          hj,
        kernelAvx512_written_acc A Bp C countK countM countN alpha i j hi
          hj]

theorem claim_C6_amended_witness :
    ((MlasGemmFloatKernelAvx oneMat oneMat
        (MlasGemmFloatKernelAvx oneMat oneMat oneMat 1 1 1 1 true).1
        1 1 1 1 false).1 0 0
      = 1 * (∑ k ∈ Finset.range 1, oneMat 0 k * oneMat k 0)
        + (1 * (∑ k ∈ Finset.range 1, oneMat 0 k * oneMat k 0) + 0)
    ∧ (MlasGemmFloatKernelAvx oneMat oneMat
        (MlasGemmFloatKernelAvx oneMat oneMat oneMat 1 1 1 1 false).1
        1 1 1 1 false).1 0 0
      = 1 * (∑ k ∈ Finset.range 1, oneMat 0 k * oneMat k 0)
        + (1 * (∑ k ∈ Finset.range 1, oneMat 0 k * oneMat k 0)
          + oneMat 0 0)) :=
  (claim_C6_amended oneMat oneMat oneMat 1 1 1 1 0 0 (by decide)).1
    (by decide)

/-- Claim C7: variant equivalence — for every common input and a row count
all three variants handle (CountM in \x7b1, 2, 4\x7d), the AVX, FMA3 and
AVX512F micro-kernels compute the same function: under the exact-arithmetic
embedding their outputs agree element-wise and they report the same row
count. -/
theorem claim_C7 (A Bp C : Mat) (countK countN : ℕ) (alpha : ℚ) (zm : Bool)
    (countM : ℕ) (h : countM = 1 ∨ countM = 2 ∨ countM = 4) :
    (∀ i j,
      (MlasGemmFloatKernelAvx A Bp C countK countM countN alpha zm).1 i j
        = (MlasGemmFloatKernelFma3 A Bp C countK countM countN alpha
            zm).1 i j
      ∧ (MlasGemmFloatKernelFma3 A Bp C countK countM countN alpha zm).1 i j
        = (MlasGemmFloatKernelAvx512F A Bp C countK countM countN alpha
            zm).1 i j)
    ∧ (MlasGemmFloatKernelAvx A Bp C countK countM countN alpha zm).2
      = (MlasGemmFloatKernelFma3 A Bp C countK countM countN alpha zm).2
    ∧ (MlasGemmFloatKernelFma3 A Bp C countK countM countN alpha zm).2
      = (MlasGemmFloatKernelAvx512F A Bp C countK countM countN alpha
          zm).2 := by
  have hrowsA : avxRowsProcessed countM = fma3RowsProcessed countM := by
    rcases h with h | h | h <;> subst h <;> decide
  have hrowsB : fma3RowsProcessed countM = avx512RowsProcessed countM := by
    rcases h with h | h | h <;> subst h <;> decide
  have hretA : avxRowsReturned countM = fma3RowsReturned countM := by
    rcases h with h | h | h <;> subst h <;> decide
  have hretB : fma3RowsReturned countM = avx512RowsReturned countM := by
    rcases h with h | h | h <;> subst h <;> decide
  refine ⟨fun i j => ⟨?_, ?_⟩, hretA, hretB⟩
  · rw [kernelAvx_cell, kernelFma3_cell, hrowsA]
  · rw [kernelFma3_cell, kernelAvx512_cell, hrowsB]

theorem claim_C7_witness :
    ((MlasGemmFloatKernelAvx aScenario bScenario cGarbage 4 2 2 1
        true).1 0 0
      = (MlasGemmFloatKernelFma3 aScenario bScenario cGarbage 4 2 2 1
          true).1 0 0
    ∧ (MlasGemmFloatKernelFma3 aScenario bScenario cGarbage 4 2 2 1
        true).1 0 0
      = (MlasGemmFloatKernelAvx512F aScenario bScenario cGarbage 4 2 2 1
          true).1 0 0)
    ∧ (MlasGemmFloatKernelAvx aScenario bScenario cGarbage 4 2 2 1 true).2
      = (MlasGemmFloatKernelFma3 aScenario bScenario cGarbage 4 2 2 1
          true).2
    ∧ (MlasGemmFloatKernelFma3 aScenario bScenario cGarbage 4 2 2 1 true).2
      = (MlasGemmFloatKernelAvx512F aScenario bScenario cGarbage 4 2 2 1
          true).2 := by
  have h := claim_C7 aScenario bScenario cGarbage 4 2 1 true 2 (by decide)
  exact ⟨h.1 0 0, h.2.1, h.2.2⟩

/-- Claim C8 counterexample: the M = 1 special-case micro-kernel
`MlasSgemmKernelM1Avx` does receive and interpret the Beta scalar — at a
concrete input its output differs between `Beta = 0` and `Beta = 1`, so
the claim that no micro-kernel variant receives or interprets the beta
scalar is false. -/
theorem claim_C8_counterexample :
    MlasSgemmKernelM1Avx (fun _ => 1) (fun _ _ => 1) (fun _ => 1) 1 1 0 0
      ≠ MlasSgemmKernelM1Avx (fun _ => 1) (fun _ _ => 1) (fun _ => 1)
          1 1 1 0 := by
  rw [MlasSgemmKernelM1Avx, MlasSgemmKernelM1Avx,
    show (decide ((0:ℚ) = 0)) = true by simp,
    show (decide ((1:ℚ) = 0)) = false by norm_num,
    m1RowLoop_spec (fun _ => 1) (fun _ _ => 1) 1 1 0 1 true (fun _ => 1)
      le_rfl le_rfl 0 Nat.one_pos,
    m1RowLoop_spec (fun _ => 1) (fun _ _ => 1) 1 1 0 1 false (fun _ => 1)
      le_rfl le_rfl 0 Nat.one_pos]
  norm_num

/-- Claim C8 amended: the three block SGEMM micro-kernels receive
output-mode control only as the boolean ZeroMode flag, but the M = 1
special-case kernels `MlasSgemmKernelM1Avx` and
`MlasSgemmKernelM1TransposeBAvx` do receive the Beta scalar; they
interpret it only through the comparison with zero, so every nonzero Beta
behaves exactly as Beta = 1 (general beta scaling is left to the outer
driver). -/
theorem claim_C8_amended (A : ℕ → ℚ) (B : ℕ → ℕ → ℚ) (C : ℕ → ℚ)
    (countK countN : ℕ) (beta : ℚ) (hbeta : beta ≠ 0) :
    (∀ j, MlasSgemmKernelM1Avx A B C countK countN beta j
      = MlasSgemmKernelM1Avx A B C countK countN 1 j)
    ∧ (∀ j, MlasSgemmKernelM1TransposeBAvx A B C countK countN beta j
      = MlasSgemmKernelM1TransposeBAvx A B C countK countN 1 j) := by
  constructor
  · intro j
    rw [MlasSgemmKernelM1Avx, MlasSgemmKernelM1Avx,
      show (decide (beta = 0)) = false by simp [hbeta],
      show (decide ((1:ℚ) = 0)) = false by norm_num]
  · intro j
    simp only [MlasSgemmKernelM1TransposeBAvx]
    rw [show (decide (beta = 0)) = false by simp [hbeta],
      show (decide ((1:ℚ) = 0)) = false by norm_num]

theorem claim_C8_amended_witness :
    ((2:ℚ) ≠ 0)
    ∧ ((∀ j, MlasSgemmKernelM1Avx (fun _ => 1) (fun _ _ => 1) (fun _ => 1)
        1 1 2 j
      = MlasSgemmKernelM1Avx (fun _ => 1) (fun _ _ => 1) (fun _ => 1)
        1 1 1 j)
    ∧ (∀ j, MlasSgemmKernelM1TransposeBAvx (fun _ => 1) (fun _ _ => 1)
        (fun _ => 1) 1 1 2 j
      = MlasSgemmKernelM1TransposeBAvx (fun _ => 1) (fun _ _ => 1)
        (fun _ => 1) 1 1 1 j)) :=
  ⟨by norm_num,
   claim_C8_amended (fun _ => 1) (fun _ _ => 1) (fun _ => 1) 1 1 2
     (by norm_num)⟩

/-- Claim C9: in the M = 1 special-case kernels the Beta parameter is used
only in an equality test against 0: if Beta compares equal to 0 the
existing C contents are discarded, and for every other Beta the existing C
is added in unscaled, exactly as if Beta were 1; the initial C
contribution is applied exactly once even though `MlasSgemmKernelM1Avx`
revisits C once per K group, because after the first group the kernel
forces accumulate mode. -/
theorem claim_C9 (A : ℕ → ℚ) (B : ℕ → ℕ → ℚ) (C : ℕ → ℚ)
    (countK countN : ℕ) (beta : ℚ) (hK : 1 ≤ countK) :
    ∀ j, j < countN →
      (MlasSgemmKernelM1Avx A B C countK countN beta j
        = (∑ k ∈ Finset.range countK, A k * B k j)
          + (if beta = 0 then 0 else C j))
      ∧ (MlasSgemmKernelM1TransposeBAvx A B C countK countN beta j
        = (∑ k ∈ Finset.range countK, A k * B j k)
          + (if beta = 0 then 0 else C j)) := by
  intro j hj
  constructor
  · rw [MlasSgemmKernelM1Avx,
      m1RowLoop_spec A B countN countK 0 countK _ C hK le_rfl j hj]
    simp only [Nat.zero_add]
    by_cases hb : beta = 0
    · simp [hb]
    · simp [hb]
  · simp only [MlasSgemmKernelM1TransposeBAvx]
    rw [if_pos hj, foldl_add_eq_sum (fun k => A k * B j k) countK]
    by_cases hb : beta = 0
    · simp [hb]
    · simp [hb]

theorem claim_C9_witness :
    (1 ≤ 1 ∧ 0 < 1)
    ∧ ((MlasSgemmKernelM1Avx (fun _ => 1) (fun _ _ => 1) (fun _ => 1)
        1 1 5 0
      = (∑ k ∈ Finset.range 1, (fun _ => (1:ℚ)) k * (fun _ _ => (1:ℚ)) k 0)
        + (if (5:ℚ) = 0 then 0 else (fun _ => (1:ℚ)) 0))
    ∧ (MlasSgemmKernelM1TransposeBAvx (fun _ => 1) (fun _ _ => 1)
        (fun _ => 1) 1 1 5 0
      = (∑ k ∈ Finset.range 1, (fun _ => (1:ℚ)) k * (fun _ _ => (1:ℚ)) 0 k)
        + (if (5:ℚ) = 0 then 0 else (fun _ => (1:ℚ)) 0))) :=
  ⟨⟨le_rfl, Nat.one_pos⟩,
   claim_C9 (fun _ => 1) (fun _ _ => 1) (fun _ => 1) 1 1 5 le_rfl 0
     Nat.one_pos⟩

/-- Claim C10: frame property of every block micro-kernel invocation — the
only C elements written are at row `r` below the returned row count and
column `c` below CountN; every other C element (and, in this functional
embedding, all of A and B_packed) is left untouched. -/
theorem claim_C10 (A Bp C : Mat) (countK countN : ℕ) (alpha : ℚ)
    (zm : Bool) (countM : ℕ) (hM : 1 ≤ countM) :
    ∀ i j,
      (((MlasGemmFloatKernelAvx A Bp C countK countM countN alpha zm).2 ≤ i
          ∨ countN ≤ j) →
        (MlasGemmFloatKernelAvx A Bp C countK countM countN alpha zm).1 i j
          = C i j)
      ∧ (((MlasGemmFloatKernelFma3 A Bp C countK countM countN alpha
            zm).2 ≤ i ∨ countN ≤ j) →
        (MlasGemmFloatKernelFma3 A Bp C countK countM countN alpha zm).1 i j
          = C i j)
      ∧ (((MlasGemmFloatKernelAvx512F A Bp C countK countM countN alpha
            zm).2 ≤ i ∨ countN ≤ j) →
        (MlasGemmFloatKernelAvx512F A Bp C countK countM countN alpha
            zm).1 i j = C i j) := by
  have hA : (MlasGemmFloatKernelAvx A Bp C countK countM countN alpha zm).2
      = avxRowsProcessed countM := by
    show avxRowsReturned countM = avxRowsProcessed countM
    rw [avxRowsReturned, avxRowsProcessed]
    split_ifs <;> omega
  have hF : (MlasGemmFloatKernelFma3 A Bp C countK countM countN alpha
      zm).2 = fma3RowsProcessed countM := by
    show fma3RowsReturned countM = fma3RowsProcessed countM
    rw [fma3RowsReturned, fma3RowsProcessed]
    split_ifs <;> omega
  have hV : (MlasGemmFloatKernelAvx512F A Bp C countK countM countN alpha
      zm).2 = avx512RowsProcessed countM := by
    show avx512RowsReturned countM = avx512RowsProcessed countM
    rw [avx512RowsReturned, avx512RowsProcessed]
    split_ifs <;> omega
  intro i j
  refine ⟨fun h => ?_, fun h => ?_, fun h => ?_⟩
  · rw [hA] at h
    rw [kernelAvx_cell, if_neg (by omega)]
  · rw [hF] at h
    rw [kernelFma3_cell, if_neg (by omega)]
  · rw [hV] at h
    rw [kernelAvx512_cell, if_neg (by omega)]

theorem claim_C10_witness :
    ((MlasGemmFloatKernelAvx aScenario bScenario cGarbage 4 1 2 1
        true).1 5 0 = cGarbage 5 0)
    ∧ ((MlasGemmFloatKernelFma3 aScenario bScenario cGarbage 4 1 2 1
        true).1 5 0 = cGarbage 5 0)
    ∧ ((MlasGemmFloatKernelAvx512F aScenario bScenario cGarbage 4 1 2 1
        true).1 5 0 = cGarbage 5 0) := by
  have h := claim_C10 aScenario bScenario cGarbage 4 2 1 true 1 le_rfl 5 0
  exact ⟨h.1 (Or.inl (by decide)), h.2.1 (Or.inl (by decide)),
    h.2.2 (Or.inl (by decide))⟩

end Mlas
